import Mathlib

/-!
Shallow embedding of `src/App.tsx` of the farmaci-giannina repository:
a medication-tracking front-end over a row-oriented store with collections
`meds`, `stocks`, `intake_logs`.  Calendar days are modelled as integer day
numbers (days since the Unix epoch); 1970-01-01 was a Thursday, so the
JavaScript `Date.getDay()` of day number `d` is `(d + 4) % 7`
(0 = Sunday, …, 6 = Saturday).  Quantities are JavaScript numbers used as
integers, modelled as `Int`; a possibly-NaN input is modelled as `Option Int`
(`none` = NaN).
-/

namespace FarmaciGiannina

/-- `const todayISO = () => new Date().toISOString().slice(0, 10)`:
the reference date, an arbitrary day number in the model. -/
def jsGetDay (d : Int) : Int := (d + 4) % 7

/-- `startOfWeekISO`: `const day = (d.getDay() + 6) % 7; d.setDate(d.getDate() - day)` —
today minus the weekday index counted from Monday. -/
def startOfWeekEpoch (d : Int) : Int := d - ((jsGetDay d + 6) % 7)

/-- `addDaysISO(iso, n)`: shift a day number by `n` days. -/
def addDays (d n : Int) : Int := d + n

/-- `allDays = Array.from({ length: 7 }, (_, i) => addDaysISO(weekStart, i))`. -/
def allDays (weekStart : Int) : List Int :=
  (List.range 7).map (fun (i : Nat) => addDays weekStart (i : Int))

/-- `days = onlyToday ? allDays.filter(d => d === todayISO()) : allDays`. -/
def daysShown (onlyToday : Bool) (today weekStart : Int) : List Int :=
  if onlyToday then (allDays weekStart).filter (fun d => d == today) else allDays weekStart

/-- C2: `startOfWeekISO` returns a Monday (`getDay = 1`) and the 7-day window
it anchors contains the reference date. -/
theorem startOfWeek_monday_and_contains (d : Int) :
    jsGetDay (startOfWeekEpoch d) = 1 ∧
    startOfWeekEpoch d ≤ d ∧ d ≤ addDays (startOfWeekEpoch d) 6 := by
  simp only [jsGetDay, startOfWeekEpoch, addDays]
  omega

/-- C4 counterexample: with "today only" enabled and a stored week anchor whose
window does not contain today (anchor `7`, today `0`), the displayed set is
empty, not `[today]`. -/
theorem daysShown_not_today_for_foreign_anchor :
    daysShown true 0 7 ≠ [0] := by decide

/-- C4 (amended): with "today only" enabled the displayed day set is `[today]`
when the anchored 7-day window contains today, and empty otherwise. -/
theorem daysShown_onlyToday (today weekStart : Int) :
    daysShown true today weekStart =
      if weekStart ≤ today ∧ today ≤ weekStart + 6 then [today] else [] := by
  have hmem : today ∈ allDays weekStart ↔ (weekStart ≤ today ∧ today ≤ weekStart + 6) := by
    simp only [allDays]
    constructor
    · intro h
      rcases List.mem_map.mp h with ⟨i, hi, hv⟩
      rw [List.mem_range] at hi
      simp only [addDays] at hv
      omega
    · intro h
      refine List.mem_map.mpr ⟨(today - weekStart).toNat, ?_, ?_⟩
      · rw [List.mem_range]; omega
      · simp only [addDays]; omega
  have hnd : (allDays weekStart).Nodup := by
    simp only [allDays]
    refine List.Nodup.map ?_ (List.nodup_range 7)
    intro a b hab
    simp only [addDays] at hab
    omega
  have hfilt : (allDays weekStart).filter (fun d => d == today) =
      List.replicate ((allDays weekStart).count today) today :=
    List.filter_beq _ _
  by_cases h : weekStart ≤ today ∧ today ≤ weekStart + 6
  · simp [daysShown, hfilt, List.count_eq_one_of_mem hnd (hmem.mpr h), h]
  · simp [daysShown, hfilt, List.count_eq_zero_of_not_mem (fun hc => h (hmem.mp hc)), h]

/-- `type TimeSlot = "Mattina" | "Mezzogiorno" | "Sera"`. -/
inductive TimeSlot
  | Mattina
  | Mezzogiorno
  | Sera
deriving DecidableEq, Repr

/-- The `location` column of the `stocks` collection: `"Box"` (on-hand) or
`"Dispensa"` (reserve). -/
inductive Location
  | Box
  | Dispensa
deriving DecidableEq, Repr

/-- A row of the `meds` collection (`type Med`). -/
structure MedRow where
  id : Nat
  family_id : Nat
  name : String
  dosage : Option String
  per_dose : Int
  times : List TimeSlot
  threshold : Int
  archived : Bool
deriving DecidableEq, Repr

/-- A row of the `stocks` collection (`med_id, location, qty` plus the row id
used as update target). -/
structure StockRow where
  id : Nat
  med_id : Nat
  location : Location
  qty : Int
deriving DecidableEq, Repr

/-- A row of the `intake_logs` collection
(`family_id, day, time_slot, med_id, taken`). -/
structure LogRow where
  family_id : Nat
  day : Int
  time_slot : TimeSlot
  med_id : Nat
  taken : Bool
deriving DecidableEq, Repr

/-- The backend state visible to this front-end: the three collections it
mutates. -/
structure DB where
  meds : List MedRow
  stocks : List StockRow
  logs : List LogRow
deriving DecidableEq, Repr

/-- The conflict target of the intake upsert and the filter of the intake
delete: equality on `(family_id, day, time_slot, med_id)`. -/
def logKeyMatch (fam : Nat) (day : Int) (slot : TimeSlot) (medId : Nat) (r : LogRow) : Bool :=
  decide (r.family_id = fam ∧ r.day = day ∧ r.time_slot = slot ∧ r.med_id = medId)

/-- `sb.from("stocks").select(...).eq("med_id", ...).eq("location", ...)`. -/
def stockPred (medId : Nat) (loc : Location) (r : StockRow) : Bool :=
  decide (r.med_id = medId ∧ r.location = loc)

/-- `.single()` on the stock query: the (unique) matching row, if any. -/
def findStock (db : DB) (medId : Nat) (loc : Location) : Option StockRow :=
  db.stocks.find? (stockPred medId loc)

/-- The quantity stored for a medication at a location, when the row exists. -/
def stockQty (db : DB) (medId : Nat) (loc : Location) : Option Int :=
  (findStock db medId loc).map (·.qty)

/-- `sb.from("stocks").update({ qty }).eq("id", rowId)`. -/
def updateStockQty (stocks : List StockRow) (rowId : Nat) (v : Int) : List StockRow :=
  stocks.map (fun r => if r.id = rowId then { r with qty := v } else r)

/-- `sb.from("intake_logs").upsert({...taken: true}, { onConflict:
"family_id,day,time_slot,med_id" })`: with the uniqueness constraint on the
key, this updates the matching row if one exists and inserts otherwise. -/
def upsertLog (logs : List LogRow) (fam : Nat) (day : Int) (slot : TimeSlot) (medId : Nat) :
    List LogRow :=
  if logs.any (logKeyMatch fam day slot medId) then
    logs.map (fun r => if logKeyMatch fam day slot medId r then { r with taken := true } else r)
  else
    logs ++ [{ family_id := fam, day := day, time_slot := slot, med_id := medId, taken := true }]

/-- `sb.from("intake_logs").delete().eq(...)×4`: delete every row matching the
key. -/
def deleteLog (logs : List LogRow) (fam : Nat) (day : Int) (slot : TimeSlot) (medId : Nat) :
    List LogRow :=
  logs.filter (fun r => !(logKeyMatch fam day slot medId r))

/-- `toggleTaken(day, time, m, force)` at the backend level.  `next` is
`typeof force === "boolean" ? force : !intakes[k]`, resolved by the caller.
If `next` the log row is upserted, else deleted; then the Box stock row is
looked up and, when found, its quantity is set to
`Math.max(0, qty + (next ? -m.per_dose : m.per_dose))`. -/
def toggleTakenDB (db : DB) (fam : Nat) (day : Int) (slot : TimeSlot) (m : MedRow)
    (next : Bool) : DB :=
  let logs1 := if next then upsertLog db.logs fam day slot m.id
               else deleteLog db.logs fam day slot m.id
  match findStock db m.id Location.Box with
  | none => { db with logs := logs1 }
  | some box =>
      { db with logs := logs1,
                stocks := updateStockQty db.stocks box.id
                  (max 0 (box.qty + (if next then -m.per_dose else m.per_dose))) }

/-- Number of intake rows for a given key. -/
def countKey (logs : List LogRow) (fam : Nat) (day : Int) (slot : TimeSlot) (medId : Nat) : Nat :=
  logs.countP (logKeyMatch fam day slot medId)

lemma logKeyMatch_set_taken (fam : Nat) (day : Int) (slot : TimeSlot) (medId : Nat)
    (r : LogRow) (b : Bool) :
    logKeyMatch fam day slot medId { r with taken := b } = logKeyMatch fam day slot medId r := rfl

lemma stockPred_set_qty (medId : Nat) (loc : Location) (r : StockRow) (v : Int) :
    stockPred medId loc { r with qty := v } = stockPred medId loc r := rfl

/-- Updating the quantity of the row with a given id commutes with the
med/location lookup: the first matching row is unchanged except, when its id
is the update target, for its quantity. -/
lemma find?_updateStockQty (l : List StockRow) (medId : Nat) (loc : Location)
    (rid : Nat) (v : Int) :
    (updateStockQty l rid v).find? (stockPred medId loc) =
      (l.find? (stockPred medId loc)).map
        (fun r => if r.id = rid then { r with qty := v } else r) := by
  induction l with
  | nil => rfl
  | cons r rs ih =>
    by_cases h : stockPred medId loc r = true
    · have h' : stockPred medId loc (if r.id = rid then { r with qty := v } else r) = true := by
        split <;> simpa [stockPred_set_qty] using h
      simp only [updateStockQty, List.map_cons] at *
      rw [List.find?_cons_of_pos _ h', List.find?_cons_of_pos _ h]
      simp
    · have h' : ¬stockPred medId loc (if r.id = rid then { r with qty := v } else r) = true := by
        split <;> simpa [stockPred_set_qty] using h
      simp only [updateStockQty, List.map_cons] at *
      rw [List.find?_cons_of_neg _ h', List.find?_cons_of_neg _ h]
      exact ih

/-- The upsert leaves the row-count for its key at its previous value when a
row existed, and at one when none did. -/
lemma countKey_upsertLog (logs : List LogRow) (fam : Nat) (day : Int) (slot : TimeSlot)
    (medId : Nat) :
    countKey (upsertLog logs fam day slot medId) fam day slot medId =
      if countKey logs fam day slot medId = 0 then 1 else countKey logs fam day slot medId := by
  unfold upsertLog countKey
  by_cases h : logs.any (logKeyMatch fam day slot medId) = true
  · rw [if_pos h]
    have hpos : 0 < logs.countP (logKeyMatch fam day slot medId) := by
      rw [List.countP_pos_iff]
      simpa [List.any_eq_true] using h
    rw [List.countP_map]
    have hc : logs.countP
        ((logKeyMatch fam day slot medId) ∘
          (fun r => if logKeyMatch fam day slot medId r then { r with taken := true } else r)) =
        logs.countP (logKeyMatch fam day slot medId) := by
      apply List.countP_congr
      intro r _
      by_cases hr : logKeyMatch fam day slot medId r = true <;>
        simp [Function.comp, hr, logKeyMatch_set_taken]
    rw [hc, if_neg (by omega)]
  · rw [if_neg h]
    have hz : logs.countP (logKeyMatch fam day slot medId) = 0 := by
      rw [List.countP_eq_zero]
      intro r hr
      intro hcontra
      exact h (List.any_eq_true.mpr ⟨r, hr, hcontra⟩)
    simp [List.countP_append, hz, List.countP_cons, logKeyMatch]

/-- The delete removes every row for the key. -/
lemma countKey_deleteLog (logs : List LogRow) (fam : Nat) (day : Int) (slot : TimeSlot)
    (medId : Nat) :
    countKey (deleteLog logs fam day slot medId) fam day slot medId = 0 := by
  unfold deleteLog countKey
  rw [List.countP_eq_zero]
  intro r hr
  rcases List.mem_filter.mp hr with ⟨-, hneg⟩
  simp only [Bool.not_eq_true'] at hneg
  simp [hneg]

lemma toggleTakenDB_logs (db : DB) (fam : Nat) (day : Int) (slot : TimeSlot) (m : MedRow)
    (next : Bool) :
    (toggleTakenDB db fam day slot m next).logs =
      if next then upsertLog db.logs fam day slot m.id
      else deleteLog db.logs fam day slot m.id := by
  unfold toggleTakenDB
  cases hfind : findStock db m.id Location.Box <;> simp [hfind]

lemma toggleTakenDB_stocks (db : DB) (fam : Nat) (day : Int) (slot : TimeSlot) (m : MedRow)
    (next : Bool) (b : StockRow) (hbox : findStock db m.id Location.Box = some b) :
    (toggleTakenDB db fam day slot m next).stocks =
      updateStockQty db.stocks b.id
        (max 0 (b.qty + (if next then -m.per_dose else m.per_dose))) := by
  unfold toggleTakenDB
  rw [hbox]

lemma toggleTakenDB_meds (db : DB) (fam : Nat) (day : Int) (slot : TimeSlot) (m : MedRow)
    (next : Bool) :
    (toggleTakenDB db fam day slot m next).meds = db.meds := by
  unfold toggleTakenDB
  cases hfind : findStock db m.id Location.Box <;> simp [hfind]

/-- After a toggle that finds the Box row, the Box row is still found, its
quantity clamped-adjusted. -/
lemma findStock_toggleTakenDB (db : DB) (fam : Nat) (day : Int) (slot : TimeSlot) (m : MedRow)
    (next : Bool) (b : StockRow) (hbox : findStock db m.id Location.Box = some b) :
    findStock (toggleTakenDB db fam day slot m next) m.id Location.Box =
      some { b with qty := max 0 (b.qty + (if next then -m.per_dose else m.per_dose)) } := by
  unfold findStock
  rw [toggleTakenDB_stocks db fam day slot m next b hbox, find?_updateStockQty]
  unfold findStock at hbox
  rw [hbox]
  simp

/-- C1: calling `toggleTaken` with `force = true` twice for the same
`(day, slot, med)` key leaves exactly one intake row for the key (the upsert
is idempotent), yet the Box stock side effect fires on both calls: the Box
quantity is decremented by `per_dose` twice, each step clamped at zero. -/
theorem setTaken_true_twice (db : DB) (fam : Nat) (day : Int) (slot : TimeSlot) (m : MedRow)
    (b : StockRow) (hbox : findStock db m.id Location.Box = some b)
    (hcount : countKey db.logs fam day slot m.id ≤ 1) :
    countKey (toggleTakenDB (toggleTakenDB db fam day slot m true) fam day slot m true).logs
        fam day slot m.id = 1 ∧
    stockQty (toggleTakenDB (toggleTakenDB db fam day slot m true) fam day slot m true)
        m.id Location.Box = some (max 0 (max 0 (b.qty - m.per_dose) - m.per_dose)) := by
  have h1find : findStock (toggleTakenDB db fam day slot m true) m.id Location.Box =
      some { b with qty := max 0 (b.qty + -m.per_dose) } := by
    simpa using findStock_toggleTakenDB db fam day slot m true b hbox
  constructor
  · rw [toggleTakenDB_logs, if_pos rfl, countKey_upsertLog,
      toggleTakenDB_logs, if_pos rfl, countKey_upsertLog]
    split_ifs <;> omega
  · unfold stockQty
    rw [findStock_toggleTakenDB (toggleTakenDB db fam day slot m true) fam day slot m true
      _ h1find]
    simp only [Option.map_some', if_true, Option.some.injEq]
    omega

/-- Medication used by the concrete intake scenarios. -/
def mC1 : MedRow :=
  { id := 1, family_id := 1, name := "Aspirina", dosage := none, per_dose := 2,
    times := [TimeSlot.Mattina], threshold := 10, archived := false }

/-- Backend state with an empty log and a Box of 5 for `mC1`. -/
def dbC1 : DB :=
  { meds := [mC1],
    stocks := [{ id := 10, med_id := 1, location := Location.Box, qty := 5 },
               { id := 11, med_id := 1, location := Location.Dispensa, qty := 7 }],
    logs := [] }

theorem setTaken_true_twice_witness :
    countKey (toggleTakenDB (toggleTakenDB dbC1 1 0 TimeSlot.Mattina mC1 true)
        1 0 TimeSlot.Mattina mC1 true).logs 1 0 TimeSlot.Mattina mC1.id = 1 ∧
    stockQty (toggleTakenDB (toggleTakenDB dbC1 1 0 TimeSlot.Mattina mC1 true)
        1 0 TimeSlot.Mattina mC1 true) mC1.id Location.Box =
      some (max 0 (max 0 ((5 : Int) - mC1.per_dose) - mC1.per_dose)) :=
  setTaken_true_twice dbC1 1 0 TimeSlot.Mattina mC1
    { id := 10, med_id := 1, location := Location.Box, qty := 5 } (by decide) (by decide)

/-- C5: `toggleTaken` with `force = false` when no intake row exists for the
key leaves the log unchanged, yet still increments the Box quantity by
`per_dose` (clamped below at zero). -/
theorem setTaken_false_no_row (db : DB) (fam : Nat) (day : Int) (slot : TimeSlot) (m : MedRow)
    (b : StockRow) (hnorow : countKey db.logs fam day slot m.id = 0)
    (hbox : findStock db m.id Location.Box = some b) :
    (toggleTakenDB db fam day slot m false).logs = db.logs ∧
    stockQty (toggleTakenDB db fam day slot m false) m.id Location.Box =
      some (max 0 (b.qty + m.per_dose)) := by
  constructor
  · rw [toggleTakenDB_logs, if_neg (by simp)]
    unfold deleteLog
    apply List.filter_eq_self.mpr
    intro r hr
    have := (List.countP_eq_zero.mp hnorow) r hr
    simp only [Bool.not_eq_true'] at this ⊢
    simpa using this
  · unfold stockQty
    rw [findStock_toggleTakenDB db fam day slot m false b hbox]
    simp

/-- Backend state with an empty log and a Box of 5 for `mC1`, distinct row
ids from `dbC1` (same shape, used for the `force = false` scenario). -/
def dbC5 : DB :=
  { meds := [mC1],
    stocks := [{ id := 20, med_id := 1, location := Location.Box, qty := 4 },
               { id := 21, med_id := 1, location := Location.Dispensa, qty := 3 }],
    logs := [] }

theorem setTaken_false_no_row_witness :
    (toggleTakenDB dbC5 1 0 TimeSlot.Sera mC1 false).logs = dbC5.logs ∧
    stockQty (toggleTakenDB dbC5 1 0 TimeSlot.Sera mC1 false) mC1.id Location.Box =
      some (max 0 ((4 : Int) + mC1.per_dose)) :=
  setTaken_false_no_row dbC5 1 0 TimeSlot.Sera mC1
    { id := 20, med_id := 1, location := Location.Box, qty := 4 } (by decide) (by decide)

/-- `moveFromPantry(m, qty)`: the guard `if (!qty || qty <= 0) return;` makes
`NaN` (modelled as `none`) and non-positive quantities a no-op; otherwise,
when both stock rows are found, Box gets `qty` added (uncapped) and Dispensa
is set to `Math.max(0, qty - moved)`. -/
def moveFromPantry (db : DB) (m : MedRow) (qty : Option Int) : DB :=
  match qty with
  | none => db
  | some q =>
    if q ≤ 0 then db
    else
      match findStock db m.id Location.Box, findStock db m.id Location.Dispensa with
      | some box, some pan =>
          { db with stocks :=
              (updateStockQty (updateStockQty db.stocks box.id (box.qty + q)) pan.id
                (max 0 (pan.qty - q))) }
      | _, _ => db

/-- C3: for a medication with both stock rows, `moveFromPantry` with missing
(`NaN`) or non-positive `qty` leaves the state unchanged; with `0 < qty` the
Box receives the full requested `qty` (even beyond the reserve's stock) and
the Dispensa becomes `max 0 (reserve - qty)`. -/
theorem moveFromPantry_spec (db : DB) (m : MedRow) (b p : StockRow) (q : Int)
    (hbox : findStock db m.id Location.Box = some b)
    (hpan : findStock db m.id Location.Dispensa = some p)
    (hid : b.id ≠ p.id) :
    moveFromPantry db m none = db ∧
    (q ≤ 0 → moveFromPantry db m (some q) = db) ∧
    (0 < q →
      stockQty (moveFromPantry db m (some q)) m.id Location.Box = some (b.qty + q) ∧
      stockQty (moveFromPantry db m (some q)) m.id Location.Dispensa =
        some (max 0 (p.qty - q))) := by
  refine ⟨rfl, ?_, ?_⟩
  · intro h
    simp [moveFromPantry, h]
  · intro h
    have hq : ¬q ≤ 0 := not_le.mpr h
    simp only [moveFromPantry]
    rw [if_neg hq, hbox, hpan]
    unfold stockQty findStock
    simp only
    rw [find?_updateStockQty, find?_updateStockQty, find?_updateStockQty, find?_updateStockQty]
    unfold findStock at hbox hpan
    rw [hbox, hpan]
    simp [hid, Ne.symm hid]

/-- Backend state for the transfer scenario: Box 5 (row 30), Dispensa 3
(row 31). -/
def dbC3 : DB :=
  { meds := [mC1],
    stocks := [{ id := 30, med_id := 1, location := Location.Box, qty := 5 },
               { id := 31, med_id := 1, location := Location.Dispensa, qty := 3 }],
    logs := [] }

theorem moveFromPantry_spec_witness :
    moveFromPantry dbC3 mC1 none = dbC3 ∧
    moveFromPantry dbC3 mC1 (some (-2)) = dbC3 ∧
    stockQty (moveFromPantry dbC3 mC1 (some 10)) mC1.id Location.Box = some ((5 : Int) + 10) ∧
    stockQty (moveFromPantry dbC3 mC1 (some 10)) mC1.id Location.Dispensa =
      some (max 0 ((3 : Int) - 10)) := by
  have h1 := moveFromPantry_spec dbC3 mC1
    { id := 30, med_id := 1, location := Location.Box, qty := 5 }
    { id := 31, med_id := 1, location := Location.Dispensa, qty := 3 }
    (-2) (by decide) (by decide) (by decide)
  have h2 := moveFromPantry_spec dbC3 mC1
    { id := 30, med_id := 1, location := Location.Box, qty := 5 }
    { id := 31, med_id := 1, location := Location.Dispensa, qty := 3 }
    10 (by decide) (by decide) (by decide)
  exact ⟨h1.1, h1.2.1 (by decide), (h2.2.2 (by decide)).1, (h2.2.2 (by decide)).2⟩

/-- `weeklyNeed(m) = m.per_dose * (m.times?.length || 0) * 7`. -/
def weeklyNeed (m : MedRow) : Int := m.per_dose * (m.times.length : Int) * 7

/-- `totalStock(m) = (stocks[m.id]?.box || 0) + (stocks[m.id]?.dispensa || 0)`:
a missing row counts as zero. -/
def totalStock (db : DB) (m : MedRow) : Int :=
  (stockQty db m.id Location.Box).getD 0 + (stockQty db m.id Location.Dispensa).getD 0

/-- `statusText(m)`. -/
def statusText (db : DB) (m : MedRow) : String :=
  if totalStock db m < m.threshold then "Sotto soglia"
  else if totalStock db m < weeklyNeed m then "Copertura < 1 settimana"
  else "OK"

/-- The three display severities of `statusTone`. -/
inductive Tone
  | green
  | amber
  | red
deriving DecidableEq, Repr

/-- `statusTone(s)`: `"OK"` → green, a string starting with `"Copertura"` →
amber, anything else → red.  `s.startsWith(p)` is modelled on the character
lists of the two strings. -/
def statusTone (s : String) : Tone :=
  if s = "OK" then Tone.green
  else if List.isPrefixOf "Copertura".data s.data then Tone.amber
  else Tone.red

/-- C6: total below threshold gives "Sotto soglia"/red; else total below the
weekly need (`per_dose × slots × 7`) gives "Copertura < 1 settimana"/amber;
else "OK"/green. -/
theorem status_spec (db : DB) (m : MedRow) :
    (totalStock db m < m.threshold →
      statusText db m = "Sotto soglia" ∧ statusTone (statusText db m) = Tone.red) ∧
    (m.threshold ≤ totalStock db m → totalStock db m < weeklyNeed m →
      statusText db m = "Copertura < 1 settimana" ∧
        statusTone (statusText db m) = Tone.amber) ∧
    (m.threshold ≤ totalStock db m → weeklyNeed m ≤ totalStock db m →
      statusText db m = "OK" ∧ statusTone (statusText db m) = Tone.green) := by
  refine ⟨?_, ?_, ?_⟩
  · intro h
    have ht : statusText db m = "Sotto soglia" := by simp [statusText, h]
    exact ⟨ht, by rw [ht]; decide⟩
  · intro h1 h2
    have ht : statusText db m = "Copertura < 1 settimana" := by
      simp [statusText, h2, not_lt.mpr h1]
    exact ⟨ht, by rw [ht]; decide⟩
  · intro h1 h2
    have ht : statusText db m = "OK" := by
      simp [statusText, not_lt.mpr h1, not_lt.mpr h2]
    exact ⟨ht, by rw [ht]; decide⟩

/-- Three medications with threshold 10, one pill per dose and two scheduled
slots (weekly need 14). -/
def mRed : MedRow :=
  { id := 1, family_id := 1, name := "A", dosage := none, per_dose := 1,
    times := [TimeSlot.Mattina, TimeSlot.Sera], threshold := 10, archived := false }

def mAmber : MedRow := { mRed with id := 2, name := "B" }

def mGreen : MedRow := { mRed with id := 3, name := "C" }

/-- Stock levels giving totals 5, 12 and 20 for the three medications. -/
def dbC6 : DB :=
  { meds := [mRed, mAmber, mGreen],
    stocks := [{ id := 41, med_id := 1, location := Location.Box, qty := 2 },
               { id := 42, med_id := 1, location := Location.Dispensa, qty := 3 },
               { id := 43, med_id := 2, location := Location.Box, qty := 6 },
               { id := 44, med_id := 2, location := Location.Dispensa, qty := 6 },
               { id := 45, med_id := 3, location := Location.Box, qty := 10 },
               { id := 46, med_id := 3, location := Location.Dispensa, qty := 10 }],
    logs := [] }

theorem status_spec_witness :
    (statusText dbC6 mRed = "Sotto soglia" ∧
      statusTone (statusText dbC6 mRed) = Tone.red) ∧
    (statusText dbC6 mAmber = "Copertura < 1 settimana" ∧
      statusTone (statusText dbC6 mAmber) = Tone.amber) ∧
    (statusText dbC6 mGreen = "OK" ∧ statusTone (statusText dbC6 mGreen) = Tone.green) :=
  ⟨(status_spec dbC6 mRed).1 (by decide),
   (status_spec dbC6 mAmber).2.1 (by decide) (by decide),
   (status_spec dbC6 mGreen).2.2 (by decide) (by decide)⟩

/-- `const TIMES: TimeSlot[] = ["Mattina", "Mezzogiorno", "Sera"]`. -/
def TIMES : List TimeSlot := [TimeSlot.Mattina, TimeSlot.Mezzogiorno, TimeSlot.Sera]

/-- `plannedDosesForToday()`: for each time slot in fixed order, every
medication whose slot set includes it. -/
def plannedDosesForToday (meds : List MedRow) : List (MedRow × TimeSlot) :=
  (TIMES.map (fun time =>
    (meds.filter (fun m => decide (time ∈ m.times))).map (fun m => (m, time)))).flatten

/-- The `(med, slot)` pairs for which `markAllToday(checked)` issues a
`toggleTaken` call: those whose tracked state `!!intakes[k]` differs from
`checked`. -/
def markAllJobs (meds : List MedRow) (intakes : Int → TimeSlot → Nat → Bool)
    (day : Int) (checked : Bool) : List (MedRow × TimeSlot) :=
  (plannedDosesForToday meds).filter (fun ms => decide (intakes day ms.2 ms.1.id ≠ checked))

/-- `markAllToday(checked)` at the backend level: the issued `toggleTaken`
calls applied to the store.  The source fires them concurrently and awaits
all; their log effects target pairwise distinct keys, so they are modelled in
issue order. -/
def markAllTodayDB (db : DB) (meds : List MedRow) (intakes : Int → TimeSlot → Nat → Bool)
    (fam : Nat) (day : Int) (checked : Bool) : DB :=
  (markAllJobs meds intakes day checked).foldl
    (fun d ms => toggleTakenDB d fam day ms.2 ms.1 checked) db

/-- `loadWeek()` read-back of one key: the tracker shows taken iff a log row
for the key has `taken = true`. -/
def loggedTaken (db : DB) (fam : Nat) (day : Int) (slot : TimeSlot) (medId : Nat) : Bool :=
  db.logs.any (fun r => logKeyMatch fam day slot medId r && r.taken)

/-- Medications for the bulk scenario: one scheduled morning and evening, one
at midday — three planned pairs in total. -/
def m71 : MedRow :=
  { id := 1, family_id := 1, name := "A", dosage := none, per_dose := 1,
    times := [TimeSlot.Mattina, TimeSlot.Sera], threshold := 10, archived := false }

def m72 : MedRow :=
  { id := 2, family_id := 1, name := "B", dosage := none, per_dose := 1,
    times := [TimeSlot.Mezzogiorno], threshold := 10, archived := false }

def medsC7 : List MedRow := [m71, m72]

/-- Tracked state: only `(day 0, Mattina, med 1)` is already taken. -/
def intakesC7 : Int → TimeSlot → Nat → Bool :=
  fun day slot med => decide (day = 0 ∧ slot = TimeSlot.Mattina ∧ med = 1)

/-- Store consistent with `intakesC7`. -/
def dbC7 : DB :=
  { meds := medsC7,
    stocks := [{ id := 51, med_id := 1, location := Location.Box, qty := 5 },
               { id := 52, med_id := 1, location := Location.Dispensa, qty := 5 },
               { id := 53, med_id := 2, location := Location.Box, qty := 5 },
               { id := 54, med_id := 2, location := Location.Dispensa, qty := 5 }],
    logs := [{ family_id := 1, day := 0, time_slot := TimeSlot.Mattina, med_id := 1,
               taken := true }] }

/-- C7: `markAllToday` toggles exactly the planned pairs whose tracked state
differs from the desired one; in the concrete scenario with 3 planned pairs
of which 1 is already taken, `markAllToday(true)` issues exactly 2 toggles
and afterwards all 3 pairs read as taken. -/
theorem markAllToday_spec :
    (∀ (meds : List MedRow) (intakes : Int → TimeSlot → Nat → Bool) (day : Int)
        (checked : Bool) (ms : MedRow × TimeSlot),
      ms ∈ markAllJobs meds intakes day checked ↔
        (ms ∈ plannedDosesForToday meds ∧ intakes day ms.2 ms.1.id ≠ checked)) ∧
    (plannedDosesForToday medsC7).length = 3 ∧
    (markAllJobs medsC7 intakesC7 0 true).length = 2 ∧
    ((plannedDosesForToday medsC7).all (fun ms =>
      loggedTaken (markAllTodayDB dbC7 medsC7 intakesC7 1 0 true) 1 0 ms.2 ms.1.id)) = true := by
  refine ⟨?_, by decide, by decide, by decide⟩
  intro meds intakes day checked ms
  rw [markAllJobs, List.mem_filter]
  simp

/-- `archiveMed(m)`: `meds.update({archived: true}).eq("id", m.id)` then
`stocks.delete().eq("med_id", m.id)`; intake rows are untouched. -/
def archiveMed (db : DB) (m : MedRow) : DB :=
  { db with
    meds := db.meds.map (fun r => if r.id = m.id then { r with archived := true } else r),
    stocks := db.stocks.filter (fun r => !(decide (r.med_id = m.id))) }

/-- `hardDeleteMed(m)`: delete the intake rows for the medication within the
caller's family, its stock rows, and the med row itself. -/
def hardDeleteMed (db : DB) (fam : Nat) (m : MedRow) : DB :=
  { db with
    logs := db.logs.filter (fun r => !(decide (r.med_id = m.id ∧ r.family_id = fam))),
    stocks := db.stocks.filter (fun r => !(decide (r.med_id = m.id))),
    meds := db.meds.filter (fun r => !(decide (r.id = m.id))) }

/-- `loadMeds()` listing filter: the caller's family and `archived = false`
(the source additionally orders by name, which does not affect membership). -/
def activeMeds (db : DB) (fam : Nat) : List MedRow :=
  db.meds.filter (fun r => decide (r.family_id = fam ∧ r.archived = false))

/-- C8: archiving sets the medication's `archived` flag, deletes its stock
rows, leaves the intake log intact and removes it from the active listing;
hard-deleting removes its family-scoped intake rows, its stock rows, and the
med row itself. -/
theorem archive_hardDelete_spec (db : DB) (fam : Nat) (m : MedRow) :
    (∀ r ∈ (archiveMed db m).meds, r.id = m.id → r.archived = true) ∧
    (∀ r ∈ (archiveMed db m).stocks, r.med_id ≠ m.id) ∧
    (archiveMed db m).logs = db.logs ∧
    (∀ r ∈ activeMeds (archiveMed db m) fam, r.id ≠ m.id) ∧
    (∀ r ∈ (hardDeleteMed db fam m).logs, ¬(r.med_id = m.id ∧ r.family_id = fam)) ∧
    (∀ r ∈ (hardDeleteMed db fam m).stocks, r.med_id ≠ m.id) ∧
    (∀ r ∈ (hardDeleteMed db fam m).meds, r.id ≠ m.id) := by
  have harch : ∀ r ∈ (archiveMed db m).meds, r.id = m.id → r.archived = true := by
    intro r hr hid
    rcases List.mem_map.mp hr with ⟨s, _, hmap⟩
    by_cases hs : s.id = m.id
    · rw [if_pos hs] at hmap
      rw [← hmap]
    · rw [if_neg hs] at hmap
      rw [← hmap] at hid
      exact absurd hid hs
  refine ⟨harch, ?_, rfl, ?_, ?_, ?_, ?_⟩
  · intro r hr
    have := (List.mem_filter.mp hr).2
    simpa using this
  · intro r hr
    have hmem := (List.mem_filter.mp hr).1
    have hpred := (List.mem_filter.mp hr).2
    intro hid
    have := harch r hmem hid
    simp [this] at hpred
  · intro r hr
    have := (List.mem_filter.mp hr).2
    simp only [Bool.not_eq_true', decide_eq_false_iff_not] at this
    exact this
  · intro r hr
    have := (List.mem_filter.mp hr).2
    simpa using this
  · intro r hr
    have := (List.mem_filter.mp hr).2
    simpa using this

/-- Two medications of family 1, with one stock row and one intake row each
plus a foreign-family intake row, for the archive/delete scenario. -/
def m81 : MedRow :=
  { id := 1, family_id := 1, name := "A", dosage := none, per_dose := 1,
    times := [TimeSlot.Mattina], threshold := 10, archived := false }

def m82 : MedRow :=
  { id := 2, family_id := 1, name := "B", dosage := none, per_dose := 1,
    times := [TimeSlot.Sera], threshold := 10, archived := false }

def stock62 : StockRow := { id := 62, med_id := 2, location := Location.Box, qty := 5 }

def log82 : LogRow :=
  { family_id := 2, day := 0, time_slot := TimeSlot.Mattina, med_id := 1, taken := true }

def dbC8 : DB :=
  { meds := [m81, m82],
    stocks := [{ id := 61, med_id := 1, location := Location.Box, qty := 5 }, stock62],
    logs := [{ family_id := 1, day := 0, time_slot := TimeSlot.Mattina, med_id := 1,
               taken := true }, log82] }

theorem archive_hardDelete_spec_witness :
    ({ m81 with archived := true } : MedRow).archived = true ∧
    stock62.med_id ≠ m81.id ∧
    (archiveMed dbC8 m81).logs = dbC8.logs ∧
    m82.id ≠ m81.id ∧
    ¬(log82.med_id = m81.id ∧ log82.family_id = 1) ∧
    stock62.med_id ≠ m81.id ∧
    m82.id ≠ m81.id :=
  have h := archive_hardDelete_spec dbC8 1 m81
  ⟨h.1 { m81 with archived := true } (by decide) (by decide),
   h.2.1 stock62 (by decide),
   h.2.2.1,
   h.2.2.2.1 m82 (by decide),
   h.2.2.2.2.1 log82 (by decide),
   h.2.2.2.2.2.1 stock62 (by decide),
   h.2.2.2.2.2.2 m82 (by decide)⟩

/-- JavaScript `x || 0` on an integer value: replaces only a zero (falsy)
value, so a negative input passes through unchanged. -/
def jsOrZero (x : Int) : Int := if x = 0 then 0 else x

/-- `addMed()`: aborts with a validation alert when the name is empty or no
time slot is chosen; otherwise inserts the med row and its two stock rows
with quantities `initBox || 0` and `initDisp || 0`. -/
def addMedDB (db : DB) (fam : Nat) (newId sid1 sid2 : Nat) (name : String)
    (dosage : Option String) (per_dose : Int) (times : List TimeSlot) (threshold : Int)
    (initBox initDisp : Int) : DB :=
  if name = "" ∨ times = [] then db
  else
    { db with
      meds := db.meds ++ [{ id := newId, family_id := fam, name := name, dosage := dosage,
                            per_dose := per_dose, times := times, threshold := threshold,
                            archived := false }],
      stocks := db.stocks ++
        [{ id := sid1, med_id := newId, location := Location.Box, qty := jsOrZero initBox },
         { id := sid2, med_id := newId, location := Location.Dispensa,
           qty := jsOrZero initDisp }] }

/-- `addPantry(m, qty)`: no-op on `NaN` or non-positive `qty`, else adds `qty`
to the Dispensa row when found. -/
def addPantry (db : DB) (m : MedRow) (qty : Option Int) : DB :=
  match qty with
  | none => db
  | some q =>
    if q ≤ 0 then db
    else
      match findStock db m.id Location.Dispensa with
      | none => db
      | some pan => { db with stocks := updateStockQty db.stocks pan.id (pan.qty + q) }

/-- `setBoxQty(m, qty)`: rejects negative or `NaN` input by no-op, else sets
the Box row's quantity absolutely. -/
def setBoxQty (db : DB) (m : MedRow) (qty : Option Int) : DB :=
  match qty with
  | none => db
  | some q =>
    if q < 0 then db
    else
      match findStock db m.id Location.Box with
      | none => db
      | some box => { db with stocks := updateStockQty db.stocks box.id q }

/-- `setPantryQty(m, qty)`: rejects negative or `NaN` input by no-op, else
sets the Dispensa row's quantity absolutely. -/
def setPantryQty (db : DB) (m : MedRow) (qty : Option Int) : DB :=
  match qty with
  | none => db
  | some q =>
    if q < 0 then db
    else
      match findStock db m.id Location.Dispensa with
      | none => db
      | some pan => { db with stocks := updateStockQty db.stocks pan.id q }

/-- The invariant claimed by the spec: no stored stock quantity is negative. -/
def NonnegStocks (db : DB) : Prop := ∀ r ∈ db.stocks, 0 ≤ r.qty

def dbEmpty : DB := { meds := [], stocks := [], logs := [] }

/-- C9 counterexample: medication creation performs no clamp — a negative
initial Box quantity (`initBox = -5`) is stored negative, so not every
stock-writing operation keeps stored quantities non-negative. -/
theorem addMed_stores_negative_initBox :
    ¬ NonnegStocks (addMedDB dbEmpty 1 1 71 72 "X" none 1 [TimeSlot.Mattina] 10 (-5) 0) := by
  unfold NonnegStocks
  decide

lemma nonneg_updateStockQty (l : List StockRow) (h : ∀ r ∈ l, 0 ≤ r.qty) (rid : Nat)
    (v : Int) (hv : 0 ≤ v) : ∀ r ∈ updateStockQty l rid v, 0 ≤ r.qty := by
  intro r hr
  rcases List.mem_map.mp hr with ⟨s, hs, hmap⟩
  by_cases h1 : s.id = rid
  · rw [if_pos h1] at hmap
    rw [← hmap]
    exact hv
  · rw [if_neg h1] at hmap
    rw [← hmap]
    exact h s hs

/-- C9 (amended): every stock mutation of the app preserves non-negativity of
all stored quantities — the intake toggle and the reserve floor clamp at
zero, the absolute setters reject negative input — except that medication
creation stores its initial quantities unclamped and therefore needs them
non-negative. -/
theorem stock_mutations_nonneg (db : DB) (hdb : NonnegStocks db) :
    (∀ (fam : Nat) (day : Int) (slot : TimeSlot) (m : MedRow) (next : Bool),
      NonnegStocks (toggleTakenDB db fam day slot m next)) ∧
    (∀ (m : MedRow) (qty : Option Int), NonnegStocks (moveFromPantry db m qty)) ∧
    (∀ (m : MedRow) (qty : Option Int), NonnegStocks (addPantry db m qty)) ∧
    (∀ (m : MedRow) (qty : Option Int), NonnegStocks (setBoxQty db m qty)) ∧
    (∀ (m : MedRow) (qty : Option Int), NonnegStocks (setPantryQty db m qty)) ∧
    (∀ (fam newId sid1 sid2 : Nat) (name : String) (dosage : Option String)
        (per_dose : Int) (times : List TimeSlot) (threshold initBox initDisp : Int),
      0 ≤ initBox → 0 ≤ initDisp →
      NonnegStocks (addMedDB db fam newId sid1 sid2 name dosage per_dose times threshold
        initBox initDisp)) := by
  refine ⟨?_, ?_, ?_, ?_, ?_, ?_⟩
  · intro fam day slot m next
    unfold toggleTakenDB
    cases hfind : findStock db m.id Location.Box with
    | none => exact hdb
    | some box => exact nonneg_updateStockQty db.stocks hdb box.id _ (le_max_left 0 _)
  · intro m qty
    match qty with
    | none => exact hdb
    | some q =>
      simp only [moveFromPantry]
      split
      · exact hdb
      · cases hbox : findStock db m.id Location.Box with
        | none => simp [hbox]; exact hdb
        | some box =>
          cases hpan : findStock db m.id Location.Dispensa with
          | none => simp [hbox, hpan]; exact hdb
          | some pan =>
            simp only [hbox, hpan]
            have hb : 0 ≤ box.qty :=
              hdb box (List.mem_of_find?_eq_some hbox)
            refine nonneg_updateStockQty _ ?_ _ _ (le_max_left 0 _)
            exact nonneg_updateStockQty db.stocks hdb box.id _ (by omega)
  · intro m qty
    match qty with
    | none => exact hdb
    | some q =>
      simp only [addPantry]
      split
      · exact hdb
      · cases hpan : findStock db m.id Location.Dispensa with
        | none => simp [hpan]; exact hdb
        | some pan =>
          simp only [hpan]
          have hp : 0 ≤ pan.qty := hdb pan (List.mem_of_find?_eq_some hpan)
          exact nonneg_updateStockQty db.stocks hdb pan.id _ (by omega)
  · intro m qty
    match qty with
    | none => exact hdb
    | some q =>
      simp only [setBoxQty]
      split
      · exact hdb
      · cases hbox : findStock db m.id Location.Box with
        | none => simp [hbox]; exact hdb
        | some box =>
          simp only [hbox]
          exact nonneg_updateStockQty db.stocks hdb box.id _ (by omega)
  · intro m qty
    match qty with
    | none => exact hdb
    | some q =>
      simp only [setPantryQty]
      split
      · exact hdb
      · cases hpan : findStock db m.id Location.Dispensa with
        | none => simp [hpan]; exact hdb
        | some pan =>
          simp only [hpan]
          exact nonneg_updateStockQty db.stocks hdb pan.id _ (by omega)
  · intro fam newId sid1 sid2 name dosage per_dose times threshold initBox initDisp hb hd
    unfold addMedDB
    split
    · exact hdb
    · intro r hr
      rcases List.mem_append.mp hr with hl | hnew
      · exact hdb r hl
      · have hq : 0 ≤ jsOrZero initBox ∧ 0 ≤ jsOrZero initDisp := by
          unfold jsOrZero
          constructor <;> split <;> omega
        have hcases : r = StockRow.mk sid1 newId Location.Box (jsOrZero initBox) ∨
            r = StockRow.mk sid2 newId Location.Dispensa (jsOrZero initDisp) := by
          simpa using hnew
        rcases hcases with h1 | h1 <;> rw [h1]
        · exact hq.1
        · exact hq.2

theorem stock_mutations_nonneg_witness :
    NonnegStocks (toggleTakenDB dbC3 1 0 TimeSlot.Mattina mC1 true) ∧
    NonnegStocks (moveFromPantry dbC3 mC1 (some 10)) ∧
    NonnegStocks (addPantry dbC3 mC1 (some 3)) ∧
    NonnegStocks (setBoxQty dbC3 mC1 (some 0)) ∧
    NonnegStocks (setPantryQty dbC3 mC1 (some 2)) ∧
    NonnegStocks (addMedDB dbC3 1 9 81 82 "X" none 1 [TimeSlot.Sera] 10 0 0) :=
  have h := stock_mutations_nonneg dbC3 (by unfold NonnegStocks; decide)
  ⟨h.1 1 0 TimeSlot.Mattina mC1 true, h.2.1 mC1 (some 10), h.2.2.1 mC1 (some 3),
   h.2.2.2.1 mC1 (some 0), h.2.2.2.2.1 mC1 (some 2),
   h.2.2.2.2.2 1 9 81 82 "X" none 1 [TimeSlot.Sera] 10 0 0 (by decide) (by decide)⟩

/-- `saveMed()`: `meds.update({ name, dosage, per_dose, times }).eq("id",
editing.id)` — replaces exactly those four fields on the edited row. -/
def saveMedDB (db : DB) (eid : Nat) (name : String) (dosage : Option String)
    (per_dose : Int) (times : List TimeSlot) : DB :=
  { db with meds := db.meds.map (fun r =>
      if r.id = eid then
        { r with name := name, dosage := dosage, per_dose := per_dose, times := times }
      else r) }

/-- C10: the catalog update writes only name/dosage/per_dose/times: stocks and
intake logs are untouched, every row keeps its id, family, threshold and
archived flag, and a row with the edited id carries exactly the new values. -/
theorem saveMed_frame (db : DB) (eid : Nat) (name : String) (dosage : Option String)
    (per_dose : Int) (times : List TimeSlot) :
    (saveMedDB db eid name dosage per_dose times).stocks = db.stocks ∧
    (saveMedDB db eid name dosage per_dose times).logs = db.logs ∧
    ((saveMedDB db eid name dosage per_dose times).meds.map
        (fun r => (r.id, r.family_id, r.threshold, r.archived))) =
      (db.meds.map (fun r => (r.id, r.family_id, r.threshold, r.archived))) ∧
    (∀ r ∈ (saveMedDB db eid name dosage per_dose times).meds, r.id = eid →
      r.name = name ∧ r.dosage = dosage ∧ r.per_dose = per_dose ∧ r.times = times) := by
  refine ⟨rfl, rfl, ?_, ?_⟩
  · show ((db.meds.map _).map _) = _
    rw [List.map_map]
    apply List.map_congr_left
    intro r _
    by_cases h : r.id = eid <;> simp [h]
  · intro r hr hid
    rcases List.mem_map.mp hr with ⟨s, _, hmap⟩
    by_cases hs : s.id = eid
    · rw [if_pos hs] at hmap
      rw [← hmap]
      exact ⟨rfl, rfl, rfl, rfl⟩
    · rw [if_neg hs] at hmap
      rw [← hmap] at hid
      exact absurd hid hs

/-- The row produced by editing `mRed` (id 1) in the scenario below. -/
def medC10 : MedRow :=
  { mRed with
    name := "D"
    dosage := some "5mg"
    per_dose := 2
    times := [TimeSlot.Mezzogiorno] }

theorem saveMed_frame_witness :
    (saveMedDB dbC6 1 "D" (some "5mg") 2 [TimeSlot.Mezzogiorno]).stocks = dbC6.stocks ∧
    (saveMedDB dbC6 1 "D" (some "5mg") 2 [TimeSlot.Mezzogiorno]).logs = dbC6.logs ∧
    ((saveMedDB dbC6 1 "D" (some "5mg") 2 [TimeSlot.Mezzogiorno]).meds.map
        (fun r => (r.id, r.family_id, r.threshold, r.archived))) =
      (dbC6.meds.map (fun r => (r.id, r.family_id, r.threshold, r.archived))) ∧
    (medC10.name = "D" ∧ medC10.dosage = some "5mg" ∧ medC10.per_dose = 2 ∧
      medC10.times = [TimeSlot.Mezzogiorno]) :=
  have h := saveMed_frame dbC6 1 "D" (some "5mg") 2 [TimeSlot.Mezzogiorno]
  ⟨h.1, h.2.1, h.2.2.1, h.2.2.2 medC10 (by decide) (by decide)⟩

end FarmaciGiannina
